import Mathlib

/-!
# Android-Libusb-Wrapper: the two JNI bridge functions

Shallow embedding of

* `src/library/src/main/jni/usb_device_connection.c`
  (`Java_com_jwoolston_android_libusb_UsbDeviceConnection_nativeGetRawDescriptor`)
* `src/library/src/main/jni/async_usb_thread.c`
  (`Java_com_jwoolston_android_libusb_AsyncUSBThread_nativeHandleEvents`)

Both functions are straight-line glue around external collaborators: the
operating system (`lseek`, `read`), the Java VM (`NewByteArray`,
`GetPrimitiveArrayCritical`, `ReleasePrimitiveArrayCritical`,
`GetDirectBufferAddress`) and libusb (`libusb_handle_events`).  The
collaborators are parameters of the embedding: each is a record of
state-passing functions, so every property below is proved for every
behaviour the collaborator may show.  Every call made on a collaborator is
appended to a trace, which is what the "no I/O", "exactly one call" and
"no copy" properties are read from.
-/

namespace LibusbWrapper

/-- One byte of a `char buffer[]` or of a Java `byte[]`; `memcpy` moves
bit patterns, so signedness plays no role. -/
abbrev Byte := Fin 256

/-- A call made on a collaborator, with the arguments that matter. -/
inductive Call where
  | lseek (fd : Int) (offset : Int) (whence : Int)
  | read (fd : Int) (count : Nat)
  | NewByteArray (length : Int)
  | GetPrimitiveArrayCritical
  | memcpy (n : Nat)
  | ReleasePrimitiveArrayCritical (mode : Int)
  | GetDirectBufferAddress (buf : Nat)
  | libusb_handle_events (ctx : Nat)
  deriving DecidableEq, Repr

/-- Operating-system interface over a file-system state `φ`.
`lseek fs fd offset whence` returns the new state and the call's result;
`read fs fd count` returns the new state, the call's result as it is stored
in `int length`, and the bytes the kernel stored at the start of the
caller's buffer. -/
structure Os (φ : Type) where
  lseek : φ → Int → Int → Int → φ × Int
  read : φ → Int → Nat → φ × Int × List Byte

/-- Java VM interface over a VM state `τ`.  `NewByteArray` and
`GetPrimitiveArrayCritical` answer with `true` for a non-NULL result and
`false` for NULL; `GetDirectBufferAddress` maps a buffer object to the
address it wraps (`0` is NULL). -/
structure Jni (τ : Type) where
  NewByteArray : τ → Int → τ × Bool
  GetPrimitiveArrayCritical : τ → τ × Bool
  ReleasePrimitiveArrayCritical : τ → Int → τ
  GetDirectBufferAddress : τ → Nat → τ × Nat

/-- The libusb interface over a library state `υ`: `libusb_handle_events`
takes the context address and returns the new state and a status code. -/
structure Libusb (υ : Type) where
  libusb_handle_events : υ → Nat → υ × Int

/-- State seen by `nativeGetRawDescriptor`: file system, VM, and the calls
made so far. -/
structure Machine (φ τ : Type) where
  fs : φ
  vm : τ
  trace : List Call

/-- State seen by `nativeHandleEvents`: VM, libusb, and the calls made so far. -/
structure Pump (τ υ : Type) where
  vm : τ
  usb : υ
  trace : List Call

/-- How a call of `nativeGetRawDescriptor` ends: it returns NULL (`none`) or
a Java `byte[]` given by its contents, or `memcpy` is asked to read past the
end of `buffer` (undefined behaviour in C). -/
inductive Outcome where
  | returned (ret : Option (List Byte))
  | fault
  deriving DecidableEq, Repr

/-- Capacity of the local array: `char buffer[16384]`, so `sizeof(buffer)`. -/
def BUFFER_SIZE : Nat := 16384

/-- `SEEK_SET` of `<unistd.h>`. -/
def SEEK_SET : Int := 0

/-- `SEEK_CUR` of `<unistd.h>`. -/
def SEEK_CUR : Int := 1

/-- `SEEK_END` of `<unistd.h>`. -/
def SEEK_END : Int := 2

/-- Contents of `buffer` after the `read`: the bytes the kernel stored, then
whatever the uninitialised stack slot held (`stack`). -/
def bufferAfterRead (stack : Nat → Byte) (data : List Byte) (i : Nat) : Byte :=
  data.getD i (stack i)

/-- The first `n` bytes of a buffer, which is what `memcpy(bytes, buffer, n)`
stores into the pinned array. -/
def firstBytes (buffer : Nat → Byte) (n : Nat) : List Byte :=
  (List.range n).map buffer

/-- A fresh Java `byte[length]`: every element is zero. -/
def freshArray (length : Int) : List Byte :=
  List.replicate length.toNat 0

/-- Embedding of `nativeGetRawDescriptor(JNIEnv *env, jobject instance, jint fd)`.

```
char buffer[16384];
if (fd < 0) return NULL;
lseek(fd, 0, SEEK_SET);
int length = read(fd, buffer, sizeof(buffer));
if (length < 0) return NULL;
jbyteArray ret = (*env)->NewByteArray(env, length);
if (ret) {
    jbyte* bytes = (jbyte*)(*env)->GetPrimitiveArrayCritical(env, ret, 0);
    if (bytes) {
        memcpy(bytes, buffer, length);
        (*env)->ReleasePrimitiveArrayCritical(env, ret, bytes, 0);
    }
}
return ret;
```
-/
def nativeGetRawDescriptor {φ τ : Type} (os : Os φ) (jni : Jni τ) (stack : Nat → Byte)
    (m : Machine φ τ) (fd : Int) : Machine φ τ × Outcome :=
  if fd < 0 then (m, Outcome.returned none)
  else
    let s := os.lseek m.fs fd 0 SEEK_SET
    let r := os.read s.1 fd BUFFER_SIZE
    let length : Int := r.2.1
    let buffer := bufferAfterRead stack r.2.2
    let t1 := m.trace ++ [Call.lseek fd 0 SEEK_SET, Call.read fd BUFFER_SIZE]
    if length < 0 then ({ fs := r.1, vm := m.vm, trace := t1 }, Outcome.returned none)
    else
      let a := jni.NewByteArray m.vm length
      let t2 := t1 ++ [Call.NewByteArray length]
      if a.2 then
        let p := jni.GetPrimitiveArrayCritical a.1
        let t3 := t2 ++ [Call.GetPrimitiveArrayCritical]
        if p.2 then
          if length.toNat ≤ BUFFER_SIZE then
            ({ fs := r.1, vm := jni.ReleasePrimitiveArrayCritical p.1 0,
               trace := t3 ++ [Call.memcpy length.toNat, Call.ReleasePrimitiveArrayCritical 0] },
             Outcome.returned (some (firstBytes buffer length.toNat)))
          else
            ({ fs := r.1, vm := p.1, trace := t3 ++ [Call.memcpy length.toNat] }, Outcome.fault)
        else
          ({ fs := r.1, vm := p.1, trace := t3 }, Outcome.returned (some (freshArray length)))
      else
        ({ fs := r.1, vm := a.1, trace := t2 }, Outcome.returned none)

/-- Embedding of `nativeHandleEvents(JNIEnv *env, jclass type, jobject context)`.

```
struct libusb_context *ctx = (libusb_context *) (*env)->GetDirectBufferAddress(env, context);
libusb_handle_events(ctx);
```
The status `libusb_handle_events` returns is dropped. -/
def nativeHandleEvents {τ υ : Type} (jni : Jni τ) (usb : Libusb υ)
    (m : Pump τ υ) (context : Nat) : Pump τ υ × Unit :=
  let a := jni.GetDirectBufferAddress m.vm context
  let ctx : Nat := a.2
  let r := usb.libusb_handle_events m.usb ctx
  ({ vm := a.1, usb := r.1,
     trace := m.trace ++ [Call.GetDirectBufferAddress context, Call.libusb_handle_events ctx] }, ())

/-! ## A mock file system and scripted collaborators

`posix` instantiates the operating-system parameter with the behaviour of
`lseek` and `read` on regular files: a descriptor table whose entries hold
the file's bytes and the descriptor's cursor.  It is the environment of the
properties that speak of "an open readable file of size N". -/

/-- An open descriptor of a regular file: the file's bytes and the cursor. -/
structure OpenFile where
  content : List Byte
  pos : Nat
  deriving DecidableEq, Repr

/-- Descriptor table: `none` for a descriptor that is not open. -/
abbrev MockFs := Int → Option OpenFile

/-- Table `fs` with descriptor `fd` now described by `f`. -/
def MockFs.set (fs : MockFs) (fd : Int) (f : OpenFile) : MockFs :=
  fun d => if d = fd then some f else fs d

/-- The `lseek` of regular files: the new cursor is `offset` from the start,
the cursor or the end; `-1` for a closed descriptor (EBADF), an unknown
`whence` or a negative resulting offset (EINVAL). -/
def MockFs.lseek (fs : MockFs) (fd offset whence : Int) : MockFs × Int :=
  match fs fd with
  | none => (fs, -1)
  | some f =>
    let base : Option Int :=
      if whence = SEEK_SET then some 0
      else if whence = SEEK_CUR then some (f.pos : Int)
      else if whence = SEEK_END then some (f.content.length : Int)
      else none
    match base with
    | none => (fs, -1)
    | some b =>
      if b + offset < 0 then (fs, -1)
      else (fs.set fd { f with pos := (b + offset).toNat }, b + offset)

/-- The `read` of regular files: up to `count` bytes from the cursor on, the
cursor advanced by as many; `-1` and nothing stored for a closed descriptor
(EBADF). -/
def MockFs.read (fs : MockFs) (fd : Int) (count : Nat) : MockFs × Int × List Byte :=
  match fs fd with
  | none => (fs, -1, [])
  | some f =>
    let data := (f.content.drop f.pos).take count
    (fs.set fd { f with pos := f.pos + data.length }, (data.length : Int), data)

/-- The operating system of the mock file system. -/
def posix : Os MockFs where
  lseek := MockFs.lseek
  read := MockFs.read

/-- The caller moves the cursor of `fd` to `p` (as `lseek(fd, p, SEEK_SET)`
does on an open descriptor); a closed descriptor is left alone. -/
def MockFs.seekTo (fs : MockFs) (fd : Int) (p : Nat) : MockFs :=
  match fs fd with
  | none => fs
  | some f => fs.set fd { f with pos := p }

/-- A VM whose state counts the `NewByteArray` calls made so far: the call
made in state `n` succeeds iff `allocOk n`, and a pin requested in state `n`
succeeds iff `pinOk n`.  Direct buffer `b` wraps the address `addr b`. -/
def scriptedJni (allocOk pinOk : Nat → Bool) (addr : Nat → Nat) : Jni Nat where
  NewByteArray := fun n _ => (n + 1, allocOk n)
  GetPrimitiveArrayCritical := fun n => (n, pinOk n)
  ReleasePrimitiveArrayCritical := fun n _ => n
  GetDirectBufferAddress := fun n b => (n, addr b)

/-- An operating system whose every `read` stores `data` and returns
`result`, whatever the descriptor and the count; `lseek` returns `0`. -/
def cannedOs (result : Int) (data : List Byte) : Os Unit where
  lseek := fun _ _ _ _ => ((), 0)
  read := fun _ _ _ => ((), result, data)

/-- A libusb whose state counts the events handled and whose every call
returns `status`. -/
def countingUsb (status : Int) : Libusb Nat where
  libusb_handle_events := fun n _ => (n + 1, status)

/-- The library `usb` with the status of every call replaced by `status`. -/
def Libusb.withStatus {υ : Type} (usb : Libusb υ) (status : υ → Nat → Int) : Libusb υ where
  libusb_handle_events := fun s ctx => ((usb.libusb_handle_events s ctx).1, status s ctx)

/-- A `read` honours its count: a non-negative result is at most the count
it was given. -/
def ReadHonoursCount {φ : Type} (os : Os φ) : Prop :=
  ∀ (fs : φ) (fd : Int) (count : Nat), (os.read fs fd count).2.1 ≤ (count : Int)

/-- Number of `read` calls in a trace. -/
def readCalls (t : List Call) : Nat :=
  (t.filter fun c => match c with | Call.read _ _ => true | _ => false).length

/-- Number of `lseek` calls in a trace. -/
def lseekCalls (t : List Call) : Nat :=
  (t.filter fun c => match c with | Call.lseek _ _ _ => true | _ => false).length

/-- Number of `NewByteArray` calls in a trace. -/
def newByteArrayCalls (t : List Call) : Nat :=
  (t.filter fun c => match c with | Call.NewByteArray _ => true | _ => false).length

/-- Number of `GetPrimitiveArrayCritical` calls in a trace. -/
def pinCalls (t : List Call) : Nat :=
  (t.filter fun c => match c with | Call.GetPrimitiveArrayCritical => true | _ => false).length

/-- Number of `memcpy` calls in a trace. -/
def memcpyCalls (t : List Call) : Nat :=
  (t.filter fun c => match c with | Call.memcpy _ => true | _ => false).length

/-- Number of `ReleasePrimitiveArrayCritical` calls in a trace. -/
def releaseCalls (t : List Call) : Nat :=
  (t.filter fun c => match c with | Call.ReleasePrimitiveArrayCritical _ => true | _ => false).length

/-- Number of `libusb_handle_events` calls in a trace. -/
def handleEventsCalls (t : List Call) : Nat :=
  (t.filter fun c => match c with | Call.libusb_handle_events _ => true | _ => false).length

/-- A table with descriptor `3` open on a file holding `content`, cursor at `pos`. -/
def fsWith (content : List Byte) (pos : Nat) : MockFs :=
  fun d => if d = 3 then some { content := content, pos := pos } else none

/-- A machine that has made no call yet. -/
def Machine.start {φ τ : Type} (fs : φ) (vm : τ) : Machine φ τ :=
  { fs := fs, vm := vm, trace := [] }

/-- Stack garbage: every slot of the uninitialised buffer holds `0xAA`. -/
def junk : Nat → Byte := fun _ => 170

/-- What the `lseek` followed by the `read` of `nativeGetRawDescriptor`
answers on file system `fs`: the new state, the length and the stored bytes. -/
def theRead {φ : Type} (os : Os φ) (fs : φ) (fd : Int) : φ × Int × List Byte :=
  os.read (os.lseek fs fd 0 SEEK_SET).1 fd BUFFER_SIZE

/-- The value assigned to `int length`. -/
def readLength {φ : Type} (os : Os φ) (fs : φ) (fd : Int) : Int :=
  (theRead os fs fd).2.1

/-- The contents of `buffer` once the `read` has returned. -/
def readBuffer {φ : Type} (os : Os φ) (stack : Nat → Byte) (fs : φ) (fd : Int) : Nat → Byte :=
  bufferAfterRead stack (theRead os fs fd).2.2

/-- Whether `NewByteArray(env, length)` called in VM state `vm` returns non-NULL. -/
def allocSucceeds {τ : Type} (jni : Jni τ) (vm : τ) (length : Int) : Bool :=
  (jni.NewByteArray vm length).2

/-- Whether `GetPrimitiveArrayCritical` on the array `NewByteArray(env, length)`
made in VM state `vm` returns non-NULL. -/
def pinSucceeds {τ : Type} (jni : Jni τ) (vm : τ) (length : Int) : Bool :=
  (jni.GetPrimitiveArrayCritical (jni.NewByteArray vm length).1).2

/-- The calls a run appended to the trace of the machine `m` it started from. -/
def callsMade {φ τ : Type} (m : Machine φ τ) (out : Machine φ τ × Outcome) : List Call :=
  out.1.trace.drop m.trace.length

/-- A VM in which every allocation and every pin succeeds. -/
def jniOk : Jni Nat := scriptedJni (fun _ => true) (fun _ => true) id

/-- A VM in which every allocation succeeds and no array can be pinned. -/
def jniNoPin : Jni Nat := scriptedJni (fun _ => true) (fun _ => false) id

/-- A VM in which no array can be allocated. -/
def jniNoMemory : Jni Nat := scriptedJni (fun _ => false) (fun _ => true) id

/-- A VM in which only the first array allocated can be pinned. -/
def jniPinFirstOnly : Jni Nat := scriptedJni (fun _ => true) (fun n => n == 1) id

/-- A file of `16385` bytes, each `7`: one byte more than `buffer` holds. -/
def bigFile : List Byte := List.replicate 16385 7

/-! ## The six paths through `nativeGetRawDescriptor` -/

section Paths

variable {φ τ : Type} (os : Os φ) (jni : Jni τ) (stack : Nat → Byte)
  (m : Machine φ τ) (fd : Int)

theorem reader_negative (h : fd < 0) :
    nativeGetRawDescriptor os jni stack m fd = (m, Outcome.returned none) := by
  simp [nativeGetRawDescriptor, h]

theorem reader_read_failed (hfd : 0 ≤ fd) (hlen : readLength os m.fs fd < 0) :
    nativeGetRawDescriptor os jni stack m fd =
      ({ fs := (theRead os m.fs fd).1, vm := m.vm,
         trace := m.trace ++ [Call.lseek fd 0 SEEK_SET, Call.read fd BUFFER_SIZE] },
       Outcome.returned none) := by
  have h1 : ¬ fd < 0 := not_lt.mpr hfd
  simp only [readLength, theRead] at hlen
  simp [nativeGetRawDescriptor, h1, hlen, theRead]

theorem reader_alloc_failed (hfd : 0 ≤ fd) (hlen : 0 ≤ readLength os m.fs fd)
    (halloc : allocSucceeds jni m.vm (readLength os m.fs fd) = false) :
    nativeGetRawDescriptor os jni stack m fd =
      ({ fs := (theRead os m.fs fd).1,
         vm := (jni.NewByteArray m.vm (readLength os m.fs fd)).1,
         trace := m.trace ++ [Call.lseek fd 0 SEEK_SET, Call.read fd BUFFER_SIZE]
                    ++ [Call.NewByteArray (readLength os m.fs fd)] },
       Outcome.returned none) := by
  have h1 : ¬ fd < 0 := not_lt.mpr hfd
  simp only [readLength, theRead, allocSucceeds] at hlen halloc
  have h2 := not_lt.mpr hlen
  simp [nativeGetRawDescriptor, h1, h2, halloc, theRead, readLength]

theorem reader_pin_failed (hfd : 0 ≤ fd) (hlen : 0 ≤ readLength os m.fs fd)
    (halloc : allocSucceeds jni m.vm (readLength os m.fs fd) = true)
    (hpin : pinSucceeds jni m.vm (readLength os m.fs fd) = false) :
    nativeGetRawDescriptor os jni stack m fd =
      ({ fs := (theRead os m.fs fd).1,
         vm := (jni.GetPrimitiveArrayCritical
                  (jni.NewByteArray m.vm (readLength os m.fs fd)).1).1,
         trace := m.trace ++ [Call.lseek fd 0 SEEK_SET, Call.read fd BUFFER_SIZE]
                    ++ [Call.NewByteArray (readLength os m.fs fd)]
                    ++ [Call.GetPrimitiveArrayCritical] },
       Outcome.returned (some (freshArray (readLength os m.fs fd)))) := by
  have h1 : ¬ fd < 0 := not_lt.mpr hfd
  simp only [readLength, theRead, allocSucceeds, pinSucceeds] at hlen halloc hpin
  have h2 := not_lt.mpr hlen
  simp [nativeGetRawDescriptor, h1, h2, halloc, hpin, theRead, readLength]

theorem reader_copied (hfd : 0 ≤ fd) (hlen : 0 ≤ readLength os m.fs fd)
    (halloc : allocSucceeds jni m.vm (readLength os m.fs fd) = true)
    (hpin : pinSucceeds jni m.vm (readLength os m.fs fd) = true)
    (hcap : (readLength os m.fs fd).toNat ≤ BUFFER_SIZE) :
    nativeGetRawDescriptor os jni stack m fd =
      ({ fs := (theRead os m.fs fd).1,
         vm := jni.ReleasePrimitiveArrayCritical
                 (jni.GetPrimitiveArrayCritical
                    (jni.NewByteArray m.vm (readLength os m.fs fd)).1).1 0,
         trace := m.trace ++ [Call.lseek fd 0 SEEK_SET, Call.read fd BUFFER_SIZE]
                    ++ [Call.NewByteArray (readLength os m.fs fd)]
                    ++ [Call.GetPrimitiveArrayCritical]
                    ++ [Call.memcpy (readLength os m.fs fd).toNat,
                        Call.ReleasePrimitiveArrayCritical 0] },
       Outcome.returned
         (some (firstBytes (readBuffer os stack m.fs fd) (readLength os m.fs fd).toNat))) := by
  have h1 : ¬ fd < 0 := not_lt.mpr hfd
  simp only [readLength, theRead, allocSucceeds, pinSucceeds] at hlen halloc hpin hcap
  have h2 := not_lt.mpr hlen
  simp [nativeGetRawDescriptor, h1, h2, halloc, hpin, hcap, theRead, readLength, readBuffer]

theorem reader_overrun (hfd : 0 ≤ fd) (hlen : 0 ≤ readLength os m.fs fd)
    (halloc : allocSucceeds jni m.vm (readLength os m.fs fd) = true)
    (hpin : pinSucceeds jni m.vm (readLength os m.fs fd) = true)
    (hcap : ¬ (readLength os m.fs fd).toNat ≤ BUFFER_SIZE) :
    nativeGetRawDescriptor os jni stack m fd =
      ({ fs := (theRead os m.fs fd).1,
         vm := (jni.GetPrimitiveArrayCritical
                  (jni.NewByteArray m.vm (readLength os m.fs fd)).1).1,
         trace := m.trace ++ [Call.lseek fd 0 SEEK_SET, Call.read fd BUFFER_SIZE]
                    ++ [Call.NewByteArray (readLength os m.fs fd)]
                    ++ [Call.GetPrimitiveArrayCritical]
                    ++ [Call.memcpy (readLength os m.fs fd).toNat] },
       Outcome.fault) := by
  have h1 : ¬ fd < 0 := not_lt.mpr hfd
  simp only [readLength, theRead, allocSucceeds, pinSucceeds] at hlen halloc hpin hcap
  have h2 := not_lt.mpr hlen
  simp [nativeGetRawDescriptor, h1, h2, halloc, hpin, hcap, theRead, readLength]

end Paths

/-! ## Facts about the buffer and about the mock file system -/

theorem freshArray_length (length : Int) : (freshArray length).length = length.toNat := by
  simp [freshArray]

theorem firstBytes_length (buffer : Nat → Byte) (n : Nat) : (firstBytes buffer n).length = n := by
  simp [firstBytes]

theorem firstBytes_stored (stack : Nat → Byte) (data : List Byte) :
    firstBytes (bufferAfterRead stack data) data.length = data := by
  apply List.ext_getElem
  · simp [firstBytes]
  · intro i h1 h2
    simp [firstBytes, bufferAfterRead, List.getD, List.getElem?_eq_getElem h2]

theorem MockFs.set_same (fs : MockFs) (fd : Int) (f : OpenFile) : fs.set fd f fd = some f := by
  simp [MockFs.set]

theorem posix_lseek_open (fs : MockFs) (fd : Int) (f : OpenFile) (h : fs fd = some f) :
    posix.lseek fs fd 0 SEEK_SET = (fs.set fd { f with pos := 0 }, 0) := by
  simp [posix, MockFs.lseek, h, SEEK_SET]

theorem posix_lseek_closed (fs : MockFs) (fd : Int) (h : fs fd = none) :
    posix.lseek fs fd 0 SEEK_SET = (fs, -1) := by
  simp [posix, MockFs.lseek, h]

theorem posix_theRead_open (fs : MockFs) (fd : Int) (f : OpenFile) (h : fs fd = some f) :
    (theRead posix fs fd).2 =
      (((f.content.take BUFFER_SIZE).length : Int), f.content.take BUFFER_SIZE) := by
  rw [theRead, posix_lseek_open fs fd f h]
  simp [posix, MockFs.read, MockFs.set_same]

theorem posix_theRead_content (fs : MockFs) (fd : Int) (f : OpenFile) (h : fs fd = some f) :
    (theRead posix fs fd).1 fd
      = some { content := f.content, pos := (f.content.take BUFFER_SIZE).length } := by
  rw [theRead, posix_lseek_open fs fd f h]
  simp [posix, MockFs.read, MockFs.set_same]

theorem posix_theRead_closed (fs : MockFs) (fd : Int) (h : fs fd = none) :
    theRead posix fs fd = (fs, -1, []) := by
  rw [theRead, posix_lseek_closed fs fd h]
  simp [posix, MockFs.read, h]

theorem posix_readLength_open (fs : MockFs) (fd : Int) (f : OpenFile) (h : fs fd = some f) :
    readLength posix fs fd = ((f.content.take BUFFER_SIZE).length : Int) := by
  rw [readLength, posix_theRead_open fs fd f h]

theorem posix_readBuffer_open (stack : Nat → Byte) (fs : MockFs) (fd : Int) (f : OpenFile)
    (h : fs fd = some f) :
    firstBytes (readBuffer posix stack fs fd) (f.content.take BUFFER_SIZE).length
      = f.content.take BUFFER_SIZE := by
  rw [readBuffer, posix_theRead_open fs fd f h]
  exact firstBytes_stored stack _

theorem posix_honours_count : ReadHonoursCount posix := by
  intro fs fd count
  simp only [posix, MockFs.read]
  cases h : fs fd with
  | none => simp; omega
  | some f =>
    simp only [List.length_take]
    exact_mod_cast min_le_left _ _

/-- On the mock file system, with the array allocated and pinned, the run
returns the first `BUFFER_SIZE` bytes of the file, wherever the cursor was. -/
theorem reader_posix_copied {τ : Type} (jni : Jni τ) (stack : Nat → Byte)
    (m : Machine MockFs τ) (fd : Int) (f : OpenFile)
    (hfd : 0 ≤ fd) (hopen : m.fs fd = some f)
    (halloc : allocSucceeds jni m.vm ((f.content.take BUFFER_SIZE).length : Int) = true)
    (hpin : pinSucceeds jni m.vm ((f.content.take BUFFER_SIZE).length : Int) = true) :
    (nativeGetRawDescriptor posix jni stack m fd).2
      = Outcome.returned (some (f.content.take BUFFER_SIZE)) := by
  have hL := posix_readLength_open m.fs fd f hopen
  rw [reader_copied posix jni stack m fd hfd (by rw [hL]; exact Int.natCast_nonneg _)
    (by rw [hL]; exact halloc) (by rw [hL]; exact hpin)
    (by rw [hL]; simp [List.length_take])]
  simp only [hL, Int.toNat_ofNat]
  rw [posix_readBuffer_open stack m.fs fd f hopen]

/-- On the mock file system, with the array allocated but not pinned, the run
returns an all-zero array as long as the bytes a full copy would have given. -/
theorem reader_posix_zeroes {τ : Type} (jni : Jni τ) (stack : Nat → Byte)
    (m : Machine MockFs τ) (fd : Int) (f : OpenFile)
    (hfd : 0 ≤ fd) (hopen : m.fs fd = some f)
    (halloc : allocSucceeds jni m.vm ((f.content.take BUFFER_SIZE).length : Int) = true)
    (hpin : pinSucceeds jni m.vm ((f.content.take BUFFER_SIZE).length : Int) = false) :
    (nativeGetRawDescriptor posix jni stack m fd).2
      = Outcome.returned (some (List.replicate (f.content.take BUFFER_SIZE).length 0)) := by
  have hL := posix_readLength_open m.fs fd f hopen
  rw [reader_pin_failed posix jni stack m fd hfd (by rw [hL]; exact Int.natCast_nonneg _)
    (by rw [hL]; exact halloc) (by rw [hL]; exact hpin)]
  simp only [hL, freshArray, Int.toNat_ofNat]

/-! ## Every run with a non-negative descriptor takes one of five paths -/

theorem callsMade_append {φ τ : Type} (m : Machine φ τ) (out : Machine φ τ × Outcome)
    (l : List Call) (h : out.1.trace = m.trace ++ l) : callsMade m out = l := by
  simp [callsMade, h]

theorem reader_paths {φ τ : Type} (os : Os φ) (jni : Jni τ) (stack : Nat → Byte)
    (m : Machine φ τ) (fd : Int) (hfd : 0 ≤ fd) :
    (readLength os m.fs fd < 0 ∧
      (nativeGetRawDescriptor os jni stack m fd).2 = Outcome.returned none ∧
      callsMade m (nativeGetRawDescriptor os jni stack m fd)
        = [Call.lseek fd 0 SEEK_SET, Call.read fd BUFFER_SIZE]) ∨
    (0 ≤ readLength os m.fs fd ∧
      allocSucceeds jni m.vm (readLength os m.fs fd) = false ∧
      (nativeGetRawDescriptor os jni stack m fd).2 = Outcome.returned none ∧
      callsMade m (nativeGetRawDescriptor os jni stack m fd)
        = [Call.lseek fd 0 SEEK_SET, Call.read fd BUFFER_SIZE,
           Call.NewByteArray (readLength os m.fs fd)]) ∨
    (0 ≤ readLength os m.fs fd ∧
      allocSucceeds jni m.vm (readLength os m.fs fd) = true ∧
      pinSucceeds jni m.vm (readLength os m.fs fd) = false ∧
      (nativeGetRawDescriptor os jni stack m fd).2
        = Outcome.returned (some (freshArray (readLength os m.fs fd))) ∧
      callsMade m (nativeGetRawDescriptor os jni stack m fd)
        = [Call.lseek fd 0 SEEK_SET, Call.read fd BUFFER_SIZE,
           Call.NewByteArray (readLength os m.fs fd), Call.GetPrimitiveArrayCritical]) ∨
    (0 ≤ readLength os m.fs fd ∧
      allocSucceeds jni m.vm (readLength os m.fs fd) = true ∧
      pinSucceeds jni m.vm (readLength os m.fs fd) = true ∧
      (readLength os m.fs fd).toNat ≤ BUFFER_SIZE ∧
      (nativeGetRawDescriptor os jni stack m fd).2
        = Outcome.returned
            (some (firstBytes (readBuffer os stack m.fs fd) (readLength os m.fs fd).toNat)) ∧
      callsMade m (nativeGetRawDescriptor os jni stack m fd)
        = [Call.lseek fd 0 SEEK_SET, Call.read fd BUFFER_SIZE,
           Call.NewByteArray (readLength os m.fs fd), Call.GetPrimitiveArrayCritical,
           Call.memcpy (readLength os m.fs fd).toNat, Call.ReleasePrimitiveArrayCritical 0]) ∨
    (0 ≤ readLength os m.fs fd ∧
      allocSucceeds jni m.vm (readLength os m.fs fd) = true ∧
      pinSucceeds jni m.vm (readLength os m.fs fd) = true ∧
      ¬ (readLength os m.fs fd).toNat ≤ BUFFER_SIZE ∧
      (nativeGetRawDescriptor os jni stack m fd).2 = Outcome.fault ∧
      callsMade m (nativeGetRawDescriptor os jni stack m fd)
        = [Call.lseek fd 0 SEEK_SET, Call.read fd BUFFER_SIZE,
           Call.NewByteArray (readLength os m.fs fd), Call.GetPrimitiveArrayCritical,
           Call.memcpy (readLength os m.fs fd).toNat]) := by
  by_cases hlen : readLength os m.fs fd < 0
  · left
    have h := reader_read_failed os jni stack m fd hfd hlen
    exact ⟨hlen, by rw [h], callsMade_append m _ _ (by rw [h])⟩
  · right
    have hlen0 : 0 ≤ readLength os m.fs fd := not_lt.mp hlen
    cases halloc : allocSucceeds jni m.vm (readLength os m.fs fd) with
    | false =>
      left
      have h := reader_alloc_failed os jni stack m fd hfd hlen0 halloc
      exact ⟨hlen0, rfl, by rw [h], callsMade_append m _ _ (by rw [h]; simp)⟩
    | true =>
      right
      cases hpin : pinSucceeds jni m.vm (readLength os m.fs fd) with
      | false =>
        left
        have h := reader_pin_failed os jni stack m fd hfd hlen0 halloc hpin
        exact ⟨hlen0, rfl, rfl, by rw [h], callsMade_append m _ _ (by rw [h]; simp)⟩
      | true =>
        right
        by_cases hcap : (readLength os m.fs fd).toNat ≤ BUFFER_SIZE
        · left
          have h := reader_copied os jni stack m fd hfd hlen0 halloc hpin hcap
          exact ⟨hlen0, rfl, rfl, hcap, by rw [h], callsMade_append m _ _ (by rw [h]; simp)⟩
        · right
          have h := reader_overrun os jni stack m fd hfd hlen0 halloc hpin hcap
          exact ⟨hlen0, rfl, rfl, hcap, by rw [h], callsMade_append m _ _ (by rw [h]; simp)⟩

/-! ## The descriptor reader: error paths -/

/-- C3: for every `fd < 0` the reader returns NULL and makes no call at all:
the calls it appends to the trace are none (so zero `lseek`, zero `read` and
zero `NewByteArray` calls), and the file system and the VM are unchanged. -/
theorem C3_negative_fd_returns_null_without_io {φ τ : Type} (os : Os φ) (jni : Jni τ)
    (stack : Nat → Byte) (m : Machine φ τ) (fd : Int) (h : fd < 0) :
    (nativeGetRawDescriptor os jni stack m fd).2 = Outcome.returned none ∧
    callsMade m (nativeGetRawDescriptor os jni stack m fd) = [] ∧
    lseekCalls (callsMade m (nativeGetRawDescriptor os jni stack m fd)) = 0 ∧
    readCalls (callsMade m (nativeGetRawDescriptor os jni stack m fd)) = 0 ∧
    newByteArrayCalls (callsMade m (nativeGetRawDescriptor os jni stack m fd)) = 0 ∧
    (nativeGetRawDescriptor os jni stack m fd).1.fs = m.fs ∧
    (nativeGetRawDescriptor os jni stack m fd).1.vm = m.vm := by
  rw [reader_negative os jni stack m fd h]
  simp [callsMade, lseekCalls, readCalls, newByteArrayCalls]

/-- C3 at `fd = -1` on the mock file system. -/
theorem C3_witness :
    (-1 : Int) < 0 ∧
    (nativeGetRawDescriptor posix jniOk junk (Machine.start (fsWith [1, 2, 3] 0) 0) (-1)).2
      = Outcome.returned none ∧
    callsMade (Machine.start (fsWith [1, 2, 3] 0) 0)
      (nativeGetRawDescriptor posix jniOk junk (Machine.start (fsWith [1, 2, 3] 0) 0) (-1)) = [] :=
  ⟨by decide,
   (C3_negative_fd_returns_null_without_io posix jniOk junk
      (Machine.start (fsWith [1, 2, 3] 0) 0) (-1) (by decide)).1,
   (C3_negative_fd_returns_null_without_io posix jniOk junk
      (Machine.start (fsWith [1, 2, 3] 0) 0) (-1) (by decide)).2.1⟩

/-- C4: for every `fd ≥ 0`, if the `read` returns a negative length the
reader returns NULL and never calls `NewByteArray`; and a `NewByteArray`
call is made, or a non-NULL value returned, only if the `read` returned a
length `≥ 0`. -/
theorem C4_read_failure_returns_null {φ τ : Type} (os : Os φ) (jni : Jni τ)
    (stack : Nat → Byte) (m : Machine φ τ) (fd : Int) (hfd : 0 ≤ fd) :
    (readLength os m.fs fd < 0 →
      (nativeGetRawDescriptor os jni stack m fd).2 = Outcome.returned none ∧
      newByteArrayCalls (callsMade m (nativeGetRawDescriptor os jni stack m fd)) = 0) ∧
    ((0 < newByteArrayCalls (callsMade m (nativeGetRawDescriptor os jni stack m fd)) ∨
        ∃ a, (nativeGetRawDescriptor os jni stack m fd).2 = Outcome.returned (some a)) →
      0 ≤ readLength os m.fs fd) := by
  have key : readLength os m.fs fd < 0 →
      (nativeGetRawDescriptor os jni stack m fd).2 = Outcome.returned none ∧
      newByteArrayCalls (callsMade m (nativeGetRawDescriptor os jni stack m fd)) = 0 := by
    intro hlen
    have h := reader_read_failed os jni stack m fd hfd hlen
    refine ⟨by rw [h], ?_⟩
    rw [callsMade_append m _ [Call.lseek fd 0 SEEK_SET, Call.read fd BUFFER_SIZE] (by rw [h])]
    simp [newByteArrayCalls]
  refine ⟨key, ?_⟩
  intro h
  by_contra hneg
  obtain ⟨hret, hcalls⟩ := key (not_le.mp hneg)
  rcases h with h | ⟨a, ha⟩
  · omega
  · rw [hret] at ha
    simp at ha

/-- C4 at descriptor `5`, which is not open in the mock file system. -/
theorem C4_witness :
    (0 : Int) ≤ 5 ∧
    readLength posix (Machine.start (fsWith [1, 2, 3] 0) 0).fs 5 < 0 ∧
    (nativeGetRawDescriptor posix jniOk junk (Machine.start (fsWith [1, 2, 3] 0) 0) 5).2
      = Outcome.returned none ∧
    newByteArrayCalls (callsMade (Machine.start (fsWith [1, 2, 3] 0) 0)
      (nativeGetRawDescriptor posix jniOk junk (Machine.start (fsWith [1, 2, 3] 0) 0) 5)) = 0 :=
  ⟨by decide, by decide,
   (C4_read_failure_returns_null posix jniOk junk
      (Machine.start (fsWith [1, 2, 3] 0) 0) 5 (by decide)).1 (by decide)⟩

/-- C5: for every `fd ≥ 0` and every `read` result `≥ 0`, if `NewByteArray`
returns NULL the reader returns NULL and the calls it made are exactly the
`lseek`, the `read` and the `NewByteArray`: no `GetPrimitiveArrayCritical`,
no `memcpy`, no `ReleasePrimitiveArrayCritical`. -/
theorem C5_alloc_failure_returns_null {φ τ : Type} (os : Os φ) (jni : Jni τ)
    (stack : Nat → Byte) (m : Machine φ τ) (fd : Int) (hfd : 0 ≤ fd)
    (hlen : 0 ≤ readLength os m.fs fd)
    (halloc : allocSucceeds jni m.vm (readLength os m.fs fd) = false) :
    (nativeGetRawDescriptor os jni stack m fd).2 = Outcome.returned none ∧
    callsMade m (nativeGetRawDescriptor os jni stack m fd)
      = [Call.lseek fd 0 SEEK_SET, Call.read fd BUFFER_SIZE,
         Call.NewByteArray (readLength os m.fs fd)] ∧
    pinCalls (callsMade m (nativeGetRawDescriptor os jni stack m fd)) = 0 ∧
    memcpyCalls (callsMade m (nativeGetRawDescriptor os jni stack m fd)) = 0 ∧
    releaseCalls (callsMade m (nativeGetRawDescriptor os jni stack m fd)) = 0 := by
  have h := reader_alloc_failed os jni stack m fd hfd hlen halloc
  have hc := callsMade_append m (nativeGetRawDescriptor os jni stack m fd)
    [Call.lseek fd 0 SEEK_SET, Call.read fd BUFFER_SIZE,
     Call.NewByteArray (readLength os m.fs fd)] (by rw [h]; simp)
  rw [hc]
  refine ⟨by rw [h], rfl, ?_, ?_, ?_⟩ <;> simp [pinCalls, memcpyCalls, releaseCalls]

/-- C5 at descriptor `3` of the mock file system, in a VM out of memory. -/
theorem C5_witness :
    (0 : Int) ≤ 3 ∧
    0 ≤ readLength posix (Machine.start (fsWith [1, 2, 3] 0) 0).fs 3 ∧
    allocSucceeds jniNoMemory (Machine.start (fsWith [1, 2, 3] 0) 0).vm
      (readLength posix (Machine.start (fsWith [1, 2, 3] 0) 0).fs 3) = false ∧
    (nativeGetRawDescriptor posix jniNoMemory junk (Machine.start (fsWith [1, 2, 3] 0) 0) 3).2
      = Outcome.returned none :=
  ⟨by decide, by decide, by decide,
   (C5_alloc_failure_returns_null posix jniNoMemory junk
      (Machine.start (fsWith [1, 2, 3] 0) 0) 3 (by decide) (by decide) (by decide)).1⟩

/-! ## The descriptor reader: what is returned -/

/-- C10: for every `fd ≥ 0` and every `read` result `L ≥ 0`, if
`NewByteArray` succeeds and `GetPrimitiveArrayCritical` returns NULL, the
reader still returns the array: it has `L` elements, all zero as allocated,
no `memcpy` and no `ReleasePrimitiveArrayCritical` was made; and there is an
environment in which that returned array differs from the bytes read. -/
theorem C10_unpinned_array_is_returned_zeroed {φ τ : Type} (os : Os φ) (jni : Jni τ)
    (stack : Nat → Byte) (m : Machine φ τ) (fd : Int) (hfd : 0 ≤ fd)
    (hlen : 0 ≤ readLength os m.fs fd)
    (halloc : allocSucceeds jni m.vm (readLength os m.fs fd) = true)
    (hpin : pinSucceeds jni m.vm (readLength os m.fs fd) = false) :
    ((nativeGetRawDescriptor os jni stack m fd).2
        = Outcome.returned (some (List.replicate (readLength os m.fs fd).toNat 0)) ∧
      callsMade m (nativeGetRawDescriptor os jni stack m fd)
        = [Call.lseek fd 0 SEEK_SET, Call.read fd BUFFER_SIZE,
           Call.NewByteArray (readLength os m.fs fd), Call.GetPrimitiveArrayCritical] ∧
      memcpyCalls (callsMade m (nativeGetRawDescriptor os jni stack m fd)) = 0 ∧
      releaseCalls (callsMade m (nativeGetRawDescriptor os jni stack m fd)) = 0) ∧
    (nativeGetRawDescriptor posix jniNoPin junk (Machine.start (fsWith [7] 0) 0) 3).2
        = Outcome.returned (some [0]) ∧
      firstBytes (readBuffer posix junk (fsWith [7] 0) 3)
          (readLength posix (fsWith [7] 0) 3).toNat = [7] := by
  have h := reader_pin_failed os jni stack m fd hfd hlen halloc hpin
  have hc := callsMade_append m (nativeGetRawDescriptor os jni stack m fd)
    [Call.lseek fd 0 SEEK_SET, Call.read fd BUFFER_SIZE,
     Call.NewByteArray (readLength os m.fs fd), Call.GetPrimitiveArrayCritical]
    (by rw [h]; simp)
  rw [hc]
  refine ⟨⟨by rw [h]; rfl, rfl, ?_, ?_⟩, by decide, by decide⟩ <;>
    simp [memcpyCalls, releaseCalls]

/-- C10 at descriptor `3` of the mock file system, in a VM that cannot pin. -/
theorem C10_witness :
    (0 : Int) ≤ 3 ∧
    0 ≤ readLength posix (Machine.start (fsWith [7, 8] 1) 0).fs 3 ∧
    allocSucceeds jniNoPin (Machine.start (fsWith [7, 8] 1) 0).vm
      (readLength posix (Machine.start (fsWith [7, 8] 1) 0).fs 3) = true ∧
    pinSucceeds jniNoPin (Machine.start (fsWith [7, 8] 1) 0).vm
      (readLength posix (Machine.start (fsWith [7, 8] 1) 0).fs 3) = false ∧
    (nativeGetRawDescriptor posix jniNoPin junk (Machine.start (fsWith [7, 8] 1) 0) 3).2
      = Outcome.returned (some (List.replicate
          (readLength posix (Machine.start (fsWith [7, 8] 1) 0).fs 3).toNat 0)) :=
  ⟨by decide, by decide, by decide, by decide,
   (C10_unpinned_array_is_returned_zeroed posix jniNoPin junk
      (Machine.start (fsWith [7, 8] 1) 0) 3 (by decide) (by decide) (by decide)
      (by decide)).1.1⟩

/-- C7, as the code has it: for every `fd ≥ 0` the reader makes exactly one
`read` call, with the buffer's capacity as its count; if that `read`
returned `L ≥ 0` then every array returned has exactly `L` elements, and,
when `GetPrimitiveArrayCritical` succeeded, they are the first `L` bytes of
the buffer as the `read` left it, short read or not. -/
theorem C7_single_read_returned_verbatim {φ τ : Type} (os : Os φ) (jni : Jni τ)
    (stack : Nat → Byte) (m : Machine φ τ) (fd : Int) (hfd : 0 ≤ fd) :
    readCalls (callsMade m (nativeGetRawDescriptor os jni stack m fd)) = 1 ∧
    Call.read fd BUFFER_SIZE ∈ callsMade m (nativeGetRawDescriptor os jni stack m fd) ∧
    (0 ≤ readLength os m.fs fd →
      ∀ a, (nativeGetRawDescriptor os jni stack m fd).2 = Outcome.returned (some a) →
        a.length = (readLength os m.fs fd).toNat ∧
        (pinSucceeds jni m.vm (readLength os m.fs fd) = true →
          a = firstBytes (readBuffer os stack m.fs fd) (readLength os m.fs fd).toNat)) := by
  rcases reader_paths os jni stack m fd hfd with
    ⟨hl, ho, hc⟩ | ⟨hl, ha, ho, hc⟩ | ⟨hl, ha, hp, ho, hc⟩ | ⟨hl, ha, hp, hcap, ho, hc⟩ |
    ⟨hl, ha, hp, hcap, ho, hc⟩
  · rw [hc, ho]
    refine ⟨by simp [readCalls], by simp, ?_⟩
    intro _ a h
    simp at h
  · rw [hc, ho]
    refine ⟨by simp [readCalls], by simp, ?_⟩
    intro _ a h
    simp at h
  · rw [hc, ho]
    refine ⟨by simp [readCalls], by simp, ?_⟩
    intro _ a h
    injection h with h
    injection h with h
    subst h
    refine ⟨freshArray_length _, ?_⟩
    intro hp2
    rw [hp] at hp2
    cases hp2
  · rw [hc, ho]
    refine ⟨by simp [readCalls], by simp, ?_⟩
    intro _ a h
    injection h with h
    injection h with h
    subst h
    exact ⟨firstBytes_length _ _, fun _ => rfl⟩
  · rw [hc, ho]
    refine ⟨by simp [readCalls], by simp, ?_⟩
    intro _ a h
    cases h

/-- C7 at a short read: the `read` stores three bytes and returns `2`. -/
theorem C7_witness :
    (0 : Int) ≤ 3 ∧
    readCalls (callsMade (Machine.start () 0)
      (nativeGetRawDescriptor (cannedOs 2 [7, 8, 9]) jniOk junk (Machine.start () 0) 3)) = 1 ∧
    Call.read 3 BUFFER_SIZE ∈ callsMade (Machine.start () 0)
      (nativeGetRawDescriptor (cannedOs 2 [7, 8, 9]) jniOk junk (Machine.start () 0) 3) ∧
    (nativeGetRawDescriptor (cannedOs 2 [7, 8, 9]) jniOk junk (Machine.start () 0) 3).2
      = Outcome.returned (some [7, 8]) :=
  ⟨by decide,
   (C7_single_read_returned_verbatim (cannedOs 2 [7, 8, 9]) jniOk junk
      (Machine.start () 0) 3 (by decide)).1,
   (C7_single_read_returned_verbatim (cannedOs 2 [7, 8, 9]) jniOk junk
      (Machine.start () 0) 3 (by decide)).2.1,
   by decide⟩

/-- C7 as stated fails: descriptor `3`, a `read` that returns `1` after
storing the byte `7`, an allocation that succeeds and a pin that does not.
A result is returned, of one element, and it is `[0]`, not the `[7]` the
`read` delivered. -/
theorem C7_counterexample :
    (0 : Int) ≤ 3 ∧
    readLength (cannedOs 1 [7]) (Machine.start () 0).fs 3 = 1 ∧
    allocSucceeds jniNoPin (Machine.start () 0).vm 1 = true ∧
    firstBytes (readBuffer (cannedOs 1 [7]) junk (Machine.start () 0).fs 3) 1 = [7] ∧
    (nativeGetRawDescriptor (cannedOs 1 [7]) jniNoPin junk (Machine.start () 0) 3).2
      = Outcome.returned (some [0]) ∧
    ¬ ((nativeGetRawDescriptor (cannedOs 1 [7]) jniNoPin junk (Machine.start () 0) 3).2
      = Outcome.returned
          (some (firstBytes (readBuffer (cannedOs 1 [7]) junk (Machine.start () 0).fs 3) 1))) := by
  decide

/-- C8: in every environment whose `read` honours its count, for every
`fd`: each `read` call the reader makes has count `16384`, the capacity of
`buffer`; the length read is at most `16384`; the run never reaches the
out-of-bounds copy; every array returned has at most `16384` elements; and
every `memcpy` made copies at most `16384` bytes. -/
theorem C8_read_bounded_by_buffer_capacity {φ τ : Type} (os : Os φ)
    (hread : ReadHonoursCount os) (jni : Jni τ) (stack : Nat → Byte)
    (m : Machine φ τ) (fd : Int) :
    BUFFER_SIZE = 16384 ∧
    (∀ fd' n, Call.read fd' n ∈ callsMade m (nativeGetRawDescriptor os jni stack m fd) →
      n = 16384) ∧
    readLength os m.fs fd ≤ 16384 ∧
    (nativeGetRawDescriptor os jni stack m fd).2 ≠ Outcome.fault ∧
    (∀ a, (nativeGetRawDescriptor os jni stack m fd).2 = Outcome.returned (some a) →
      a.length ≤ 16384) ∧
    (∀ n, Call.memcpy n ∈ callsMade m (nativeGetRawDescriptor os jni stack m fd) →
      n ≤ 16384) := by
  have hL : readLength os m.fs fd ≤ 16384 := by
    have := hread (os.lseek m.fs fd 0 SEEK_SET).1 fd BUFFER_SIZE
    simpa [readLength, theRead, BUFFER_SIZE] using this
  have hN : (readLength os m.fs fd).toNat ≤ 16384 := by omega
  refine ⟨rfl, ?_, hL, ?_⟩
  · intro fd' n hmem
    by_cases hfd : fd < 0
    · rw [reader_negative os jni stack m fd hfd] at hmem
      simp [callsMade] at hmem
    · rcases reader_paths os jni stack m fd (not_lt.mp hfd) with
        ⟨_, _, hc⟩ | ⟨_, _, _, hc⟩ | ⟨_, _, _, _, hc⟩ | ⟨_, _, _, _, _, hc⟩ |
        ⟨_, _, _, _, _, hc⟩ <;>
      · rw [hc] at hmem
        simp at hmem
        rw [hmem.2]
        rfl
  · by_cases hfd : fd < 0
    · rw [reader_negative os jni stack m fd hfd]
      simp [callsMade]
    · rcases reader_paths os jni stack m fd (not_lt.mp hfd) with
        ⟨_, ho, hc⟩ | ⟨_, _, ho, hc⟩ | ⟨_, _, _, ho, hc⟩ | ⟨_, _, _, _, ho, hc⟩ |
        ⟨_, _, _, hcap, _, _⟩
      · rw [ho, hc]
        simp
      · rw [ho, hc]
        simp
      · rw [ho, hc]
        simp [freshArray]
        exact hL
      · rw [ho, hc]
        simp [firstBytes]
        exact hL
      · exact absurd hN hcap

/-- C8 at the mock file system, whose `read` honours its count. -/
theorem C8_witness :
    ReadHonoursCount posix ∧
    readLength posix (Machine.start (fsWith [1, 2, 3] 2) 0).fs 3 ≤ 16384 ∧
    (nativeGetRawDescriptor posix jniOk junk (Machine.start (fsWith [1, 2, 3] 2) 0) 3).2
      ≠ Outcome.fault :=
  ⟨posix_honours_count,
   (C8_read_bounded_by_buffer_capacity posix posix_honours_count jniOk junk
      (Machine.start (fsWith [1, 2, 3] 2) 0) 3).2.2.1,
   (C8_read_bounded_by_buffer_capacity posix posix_honours_count jniOk junk
      (Machine.start (fsWith [1, 2, 3] 2) 0) 3).2.2.2.1⟩

/-! ## The event pump bridge -/

/-- C9: for every context handle the bridge makes exactly two calls, in this
order: `GetDirectBufferAddress` on the handle, then one
`libusb_handle_events` whose argument is the very address the first call
returned; the library state it leaves is the one that call produced; it
returns unit; and replacing the status the library returns by any other
changes nothing in the machine it leaves or in what it returns. -/
theorem C9_handle_events_called_once_status_dropped {τ υ : Type} (jni : Jni τ)
    (usb : Libusb υ) (m : Pump τ υ) (context : Nat) (status : υ → Nat → Int) :
    (nativeHandleEvents jni usb m context).1.trace
      = m.trace ++ [Call.GetDirectBufferAddress context,
          Call.libusb_handle_events (jni.GetDirectBufferAddress m.vm context).2] ∧
    handleEventsCalls ((nativeHandleEvents jni usb m context).1.trace.drop m.trace.length) = 1 ∧
    (nativeHandleEvents jni usb m context).1.usb
      = (usb.libusb_handle_events m.usb (jni.GetDirectBufferAddress m.vm context).2).1 ∧
    (nativeHandleEvents jni usb m context).2 = () ∧
    ((usb.withStatus status).libusb_handle_events m.usb
        (jni.GetDirectBufferAddress m.vm context).2).2
      = status m.usb (jni.GetDirectBufferAddress m.vm context).2 ∧
    nativeHandleEvents jni (usb.withStatus status) m context
      = nativeHandleEvents jni usb m context := by
  refine ⟨rfl, ?_, rfl, rfl, rfl, rfl⟩
  simp [nativeHandleEvents, handleEventsCalls]

/-! ## The descriptor reader on regular files -/

theorem reader_fs {φ τ : Type} (os : Os φ) (jni : Jni τ) (stack : Nat → Byte)
    (m : Machine φ τ) (fd : Int) (hfd : 0 ≤ fd) :
    (nativeGetRawDescriptor os jni stack m fd).1.fs = (theRead os m.fs fd).1 := by
  have h1 : ¬ fd < 0 := not_lt.mpr hfd
  simp only [nativeGetRawDescriptor, h1, if_false, theRead]
  split_ifs <;> rfl

theorem seekTo_open (fs : MockFs) (fd : Int) (f : OpenFile) (p : Nat) (h : fs fd = some f) :
    fs.seekTo fd p fd = some { content := f.content, pos := p } := by
  simp [MockFs.seekTo, h, MockFs.set]

theorem take_of_small (content : List Byte) (h : content.length ≤ 16384) :
    content.take BUFFER_SIZE = content :=
  List.take_of_length_le h

theorem take_length_of_large (content : List Byte) (h : 16384 < content.length) :
    (content.take BUFFER_SIZE).length = 16384 := by
  simp only [List.length_take, BUFFER_SIZE]
  omega

theorem bigFile_length : bigFile.length = 16385 := by
  rw [bigFile, List.length_replicate]

theorem bigFile_large : 16384 < bigFile.length := by
  rw [bigFile_length]
  omega

theorem bigFile_take : bigFile.take 16384 = List.replicate 16384 7 := by
  rw [bigFile, List.take_replicate]
  rfl

theorem fsWith_open (content : List Byte) (pos : Nat) :
    (Machine.start (fsWith content pos) (0 : Nat)).fs 3
      = some { content := content, pos := pos } := by
  simp [fsWith, Machine.start]

/-- C1, as the code has it: for every `fd ≥ 0` open on a file of `N ≤ 16384`
bytes, wherever its cursor is, if `NewByteArray` and
`GetPrimitiveArrayCritical` both succeed, the reader returns an array of
exactly `N` elements whose `i`-th element is the file's `i`-th byte: the
file's content, in which the cursor position plays no part. -/
theorem C1_small_file_returned_whole {τ : Type} (jni : Jni τ) (stack : Nat → Byte)
    (m : Machine MockFs τ) (fd : Int) (content : List Byte) (pos : Nat)
    (hfd : 0 ≤ fd) (hopen : m.fs fd = some { content := content, pos := pos })
    (hsize : content.length ≤ 16384)
    (halloc : allocSucceeds jni m.vm (content.length : Int) = true)
    (hpin : pinSucceeds jni m.vm (content.length : Int) = true) :
    ∃ a, (nativeGetRawDescriptor posix jni stack m fd).2 = Outcome.returned (some a) ∧
      a.length = content.length ∧
      (∀ i, i < content.length → a[i]? = content[i]?) ∧
      a = content := by
  have ht := take_of_small content hsize
  have h := reader_posix_copied jni stack m fd _ hfd hopen
    (by simpa [ht] using halloc) (by simpa [ht] using hpin)
  simp only [ht] at h
  exact ⟨content, h, rfl, fun _ _ => rfl, rfl⟩

/-- C1 at descriptor `3` open on `[7, 8, 9]` with the cursor at `2`. -/
theorem C1_witness :
    (0 : Int) ≤ 3 ∧
    (Machine.start (fsWith [7, 8, 9] 2) 0).fs 3 = some { content := [7, 8, 9], pos := 2 } ∧
    ∃ a, (nativeGetRawDescriptor posix jniOk junk (Machine.start (fsWith [7, 8, 9] 2) 0) 3).2
        = Outcome.returned (some a) ∧
      a.length = ([7, 8, 9] : List Byte).length ∧
      (∀ i, i < ([7, 8, 9] : List Byte).length → a[i]? = ([7, 8, 9] : List Byte)[i]?) ∧
      a = [7, 8, 9] :=
  ⟨by decide, by decide,
   C1_small_file_returned_whole jniOk junk (Machine.start (fsWith [7, 8, 9] 2) 0) 3
     [7, 8, 9] 2 (by decide) (by decide) (by decide) (by decide) (by decide)⟩

/-- C1 as stated fails: descriptor `3` open on the one-byte file `[7]`,
an allocation that succeeds and a pin that does not.  The array returned is
`[0]`, whose byte `0` is not the file's. -/
theorem C1_counterexample :
    (0 : Int) ≤ 3 ∧
    (Machine.start (fsWith [7] 0) 0).fs 3 = some { content := [7], pos := 0 } ∧
    ([7] : List Byte).length ≤ 16384 ∧
    allocSucceeds jniNoPin (Machine.start (fsWith [7] 0) 0).vm
      (([7] : List Byte).length : Int) = true ∧
    (nativeGetRawDescriptor posix jniNoPin junk (Machine.start (fsWith [7] 0) 0) 3).2
      = Outcome.returned (some [0]) ∧
    ¬ ((nativeGetRawDescriptor posix jniNoPin junk (Machine.start (fsWith [7] 0) 0) 3).2
      = Outcome.returned (some [7])) := by
  decide

/-- C2, as the code has it: for every `fd ≥ 0` open on a file of
`N > 16384` bytes, if `NewByteArray` and `GetPrimitiveArrayCritical` both
succeed, the reader returns an array of exactly `16384` elements, the first
`16384` bytes of the file; and the result is the same for every file that
starts with those `16384` bytes, so nothing at offset `16384` or beyond
reaches it. -/
theorem C2_large_file_truncated {τ : Type} (jni : Jni τ) (stack : Nat → Byte)
    (m : Machine MockFs τ) (fd : Int) (content : List Byte) (pos : Nat)
    (hfd : 0 ≤ fd) (hopen : m.fs fd = some { content := content, pos := pos })
    (hsize : 16384 < content.length)
    (halloc : allocSucceeds jni m.vm 16384 = true)
    (hpin : pinSucceeds jni m.vm 16384 = true) :
    (nativeGetRawDescriptor posix jni stack m fd).2
      = Outcome.returned (some (content.take 16384)) ∧
    (content.take 16384).length = 16384 ∧
    (∀ (other : List Byte) (pos2 : Nat), other.take 16384 = content.take 16384 →
      (nativeGetRawDescriptor posix jni stack
          { m with fs := m.fs.set fd { content := other, pos := pos2 } } fd).2
        = (nativeGetRawDescriptor posix jni stack m fd).2) := by
  have hlen := take_length_of_large content hsize
  have h := reader_posix_copied jni stack m fd _ hfd hopen
    (by simpa [hlen] using halloc) (by simpa [hlen] using hpin)
  refine ⟨h, hlen, ?_⟩
  intro other pos2 hsame
  have hsame2 : other.take BUFFER_SIZE = content.take BUFFER_SIZE := hsame
  have h2 := reader_posix_copied jni stack
    { m with fs := m.fs.set fd { content := other, pos := pos2 } } fd
    { content := other, pos := pos2 } hfd (MockFs.set_same _ _ _)
    (by simpa [hsame2, hlen] using halloc) (by simpa [hsame2, hlen] using hpin)
  rw [h2, h]
  simp only [hsame2]

/-- C2 at descriptor `3` open on `bigFile` with the cursor at `5`. -/
theorem C2_witness :
    (0 : Int) ≤ 3 ∧
    16384 < bigFile.length ∧
    (nativeGetRawDescriptor posix jniOk junk (Machine.start (fsWith bigFile 5) 0) 3).2
      = Outcome.returned (some (bigFile.take 16384)) ∧
    (bigFile.take 16384).length = 16384 :=
  ⟨by decide, bigFile_large,
   (C2_large_file_truncated jniOk junk (Machine.start (fsWith bigFile 5) 0) 3
      bigFile 5 (by decide) (fsWith_open bigFile 5) bigFile_large rfl rfl).1,
   (C2_large_file_truncated jniOk junk (Machine.start (fsWith bigFile 5) 0) 3
      bigFile 5 (by decide) (fsWith_open bigFile 5) bigFile_large rfl rfl).2.1⟩

/-- C2 as stated fails: descriptor `3` open on a file of `16385` bytes, each
`7`, an allocation that succeeds and a pin that does not.  The array
returned holds `16384` zeroes, not the first `16384` bytes of the file. -/
theorem C2_counterexample :
    (0 : Int) ≤ 3 ∧
    (Machine.start (fsWith bigFile 0) 0).fs 3 = some { content := bigFile, pos := 0 } ∧
    16384 < bigFile.length ∧
    allocSucceeds jniNoPin (Machine.start (fsWith bigFile 0) 0).vm 16384 = true ∧
    (nativeGetRawDescriptor posix jniNoPin junk (Machine.start (fsWith bigFile 0) 0) 3).2
      = Outcome.returned (some (List.replicate 16384 0)) ∧
    ¬ ((nativeGetRawDescriptor posix jniNoPin junk (Machine.start (fsWith bigFile 0) 0) 3).2
      = Outcome.returned (some (bigFile.take 16384))) := by
  have hlen : (bigFile.take BUFFER_SIZE).length = 16384 :=
    take_length_of_large _ bigFile_large
  have h := reader_posix_zeroes jniNoPin junk
    (Machine.start (fsWith bigFile 0) 0) 3 _ (by decide) (fsWith_open bigFile 0) rfl rfl
  rw [hlen] at h
  refine ⟨by decide, fsWith_open bigFile 0, bigFile_large, rfl, h, ?_⟩
  rw [h]
  intro hbad
  injection hbad with hbad
  injection hbad with hbad
  have hmem : (7 : Byte) ∈ bigFile.take 16384 := by
    rw [bigFile_take]
    exact List.mem_replicate.mpr ⟨by decide, rfl⟩
  rw [← hbad] at hmem
  exact absurd (List.eq_of_mem_replicate hmem) (by decide)

/-- C6, as the code has it: for every `fd ≥ 0` open on a file, call the
reader, let the caller leave the cursor anywhere (`pos2`), and call it
again on the same unchanged file.  Whenever `NewByteArray` and
`GetPrimitiveArrayCritical` both succeed in both calls, the two calls return
arrays equal in length and content: the first `BUFFER_SIZE` bytes of the
file, wherever the cursor was before either call. -/
theorem C6_repeated_reads_agree {τ : Type} (jni : Jni τ) (stack1 stack2 : Nat → Byte)
    (m : Machine MockFs τ) (fd : Int) (content : List Byte) (pos1 pos2 : Nat)
    (hfd : 0 ≤ fd) (hopen : m.fs fd = some { content := content, pos := pos1 })
    (halloc1 : allocSucceeds jni m.vm ((content.take BUFFER_SIZE).length : Int) = true)
    (hpin1 : pinSucceeds jni m.vm ((content.take BUFFER_SIZE).length : Int) = true)
    (halloc2 : allocSucceeds jni (nativeGetRawDescriptor posix jni stack1 m fd).1.vm
      ((content.take BUFFER_SIZE).length : Int) = true)
    (hpin2 : pinSucceeds jni (nativeGetRawDescriptor posix jni stack1 m fd).1.vm
      ((content.take BUFFER_SIZE).length : Int) = true) :
    (nativeGetRawDescriptor posix jni stack2
        { (nativeGetRawDescriptor posix jni stack1 m fd).1 with
          fs := (nativeGetRawDescriptor posix jni stack1 m fd).1.fs.seekTo fd pos2 } fd).2
      = (nativeGetRawDescriptor posix jni stack1 m fd).2 ∧
    (nativeGetRawDescriptor posix jni stack1 m fd).2
      = Outcome.returned (some (content.take BUFFER_SIZE)) ∧
    ((nativeGetRawDescriptor posix jni stack1 m fd).1.fs.seekTo fd pos2) fd
      = some { content := content, pos := pos2 } := by
  have h1 := reader_posix_copied jni stack1 m fd _ hfd hopen halloc1 hpin1
  have hfs : (nativeGetRawDescriptor posix jni stack1 m fd).1.fs fd
      = some { content := content, pos := (content.take BUFFER_SIZE).length } := by
    rw [reader_fs posix jni stack1 m fd hfd]
    exact posix_theRead_content m.fs fd _ hopen
  have hopen2 := seekTo_open _ fd _ pos2 hfs
  have h2 := reader_posix_copied jni stack2
    { (nativeGetRawDescriptor posix jni stack1 m fd).1 with
      fs := (nativeGetRawDescriptor posix jni stack1 m fd).1.fs.seekTo fd pos2 } fd
    { content := content, pos := pos2 } hfd hopen2 halloc2 hpin2
  exact ⟨by rw [h2, h1], h1, hopen2⟩

/-- C6 at descriptor `3` open on `[7, 8, 9]`, cursor at `2`, then at `1`. -/
theorem C6_witness :
    (0 : Int) ≤ 3 ∧
    (nativeGetRawDescriptor posix jniOk junk
        { (nativeGetRawDescriptor posix jniOk junk (Machine.start (fsWith [7, 8, 9] 2) 0) 3).1 with
          fs := (nativeGetRawDescriptor posix jniOk junk
                  (Machine.start (fsWith [7, 8, 9] 2) 0) 3).1.fs.seekTo 3 1 } 3).2
      = (nativeGetRawDescriptor posix jniOk junk (Machine.start (fsWith [7, 8, 9] 2) 0) 3).2 ∧
    (nativeGetRawDescriptor posix jniOk junk (Machine.start (fsWith [7, 8, 9] 2) 0) 3).2
      = Outcome.returned (some [7, 8, 9]) :=
  ⟨by decide,
   (C6_repeated_reads_agree jniOk junk junk (Machine.start (fsWith [7, 8, 9] 2) 0) 3
      [7, 8, 9] 2 1 (by decide) (by decide) (by decide) (by decide) (by decide)
      (by decide)).1,
   by decide⟩

/-- C6 as stated fails: descriptor `3` open on the one-byte file `[7]`, a VM
in which both allocations succeed and only the first array can be pinned.
The first call returns `[7]`; the caller puts the cursor back at `0`; the
second call, on the same file, returns `[0]`. -/
theorem C6_counterexample :
    (0 : Int) ≤ 3 ∧
    (Machine.start (fsWith [7] 0) 0).fs 3 = some { content := [7], pos := 0 } ∧
    allocSucceeds jniPinFirstOnly (Machine.start (fsWith [7] 0) 0).vm 1 = true ∧
    allocSucceeds jniPinFirstOnly
      (nativeGetRawDescriptor posix jniPinFirstOnly junk (Machine.start (fsWith [7] 0) 0) 3).1.vm
      1 = true ∧
    ((nativeGetRawDescriptor posix jniPinFirstOnly junk
        (Machine.start (fsWith [7] 0) 0) 3).1.fs.seekTo 3 0) 3
      = some { content := [7], pos := 0 } ∧
    (nativeGetRawDescriptor posix jniPinFirstOnly junk (Machine.start (fsWith [7] 0) 0) 3).2
      = Outcome.returned (some [7]) ∧
    (nativeGetRawDescriptor posix jniPinFirstOnly junk
        { (nativeGetRawDescriptor posix jniPinFirstOnly junk
            (Machine.start (fsWith [7] 0) 0) 3).1 with
          fs := (nativeGetRawDescriptor posix jniPinFirstOnly junk
                  (Machine.start (fsWith [7] 0) 0) 3).1.fs.seekTo 3 0 } 3).2
      = Outcome.returned (some [0]) ∧
    ¬ ((nativeGetRawDescriptor posix jniPinFirstOnly junk
        { (nativeGetRawDescriptor posix jniPinFirstOnly junk
            (Machine.start (fsWith [7] 0) 0) 3).1 with
          fs := (nativeGetRawDescriptor posix jniPinFirstOnly junk
                  (Machine.start (fsWith [7] 0) 0) 3).1.fs.seekTo 3 0 } 3).2
      = (nativeGetRawDescriptor posix jniPinFirstOnly junk
          (Machine.start (fsWith [7] 0) 0) 3).2) := by
  decide

/-- X1: for every `fd ≥ 0` the reader's first two calls are
`lseek(fd, 0, SEEK_SET)` and then `read(fd, buffer, 16384)`, whatever the
`lseek` returned: the reposition is unconditional and made exactly once. -/
theorem X1_seek_to_start_precedes_read {φ τ : Type} (os : Os φ) (jni : Jni τ)
    (stack : Nat → Byte) (m : Machine φ τ) (fd : Int) (hfd : 0 ≤ fd) :
    (callsMade m (nativeGetRawDescriptor os jni stack m fd)).take 2
      = [Call.lseek fd 0 0, Call.read fd 16384] ∧
    lseekCalls (callsMade m (nativeGetRawDescriptor os jni stack m fd)) = 1 := by
  rcases reader_paths os jni stack m fd hfd with
    ⟨_, _, hc⟩ | ⟨_, _, _, hc⟩ | ⟨_, _, _, _, hc⟩ | ⟨_, _, _, _, _, hc⟩ |
    ⟨_, _, _, _, _, hc⟩ <;>
  · rw [hc]
    exact ⟨rfl, by simp [lseekCalls]⟩

/-- X1 at descriptor `3` of the mock file system. -/
theorem X1_witness :
    (0 : Int) ≤ 3 ∧
    lseekCalls (callsMade (Machine.start (fsWith [7, 8, 9] 2) 0)
      (nativeGetRawDescriptor posix jniOk junk (Machine.start (fsWith [7, 8, 9] 2) 0) 3)) = 1 :=
  ⟨by decide,
   (X1_seek_to_start_precedes_read posix jniOk junk
      (Machine.start (fsWith [7, 8, 9] 2) 0) 3 (by decide)).2⟩

end LibusbWrapper
